import Mathlib

/-!
Verification of the recipe parser of `recipes/src/parse.rs` (the `kitchen`
repository) against its natural-language specification.

The parser is embedded shallowly: the input cursor is the list of remaining
characters, every grammar rule is a function from cursor to a five-way result
(the four outcomes of the combinator layer of §4.2 of the specification, plus
an explicit `crashed` outcome modelling a Rust panic propagating out of the
parse).  The combinator layer itself (the `abortable_parser` crate) and the
data model (`recipes/src/lib.rs` and `recipes/src/unit.rs`) are not under
`src/`; they are modelled from the specification as noted on each definition.
-/

namespace Kitchen

/-- Modelled from the spec: a Rust panic escaping the parse.  The three panic
sites are `u32::from_str(..).unwrap()` in `num` (overflow), `Ratio::new` with a
zero denominator in `ratio` (num_rational's documented error), and the
`unreachable!()` arm of `measure`'s unit-to-Measurement mapping. -/
inductive CrashKind where
  | overflow
  | zeroDenominator
  | unreachableUnit
deriving DecidableEq

/-- Modelled from the spec (§4.2): the four outcomes of a grammar rule —
Complete, Fail, Abort, Incomplete — plus `crashed` for a propagating panic.
The error carries the human-readable reason; offsets are not tracked. -/
inductive PRes (α : Type) where
  | complete (rest : List Char) (val : α)
  | fail (msg : String)
  | abort (msg : String)
  | incomplete
  | crashed (k : CrashKind)
deriving DecidableEq

/-- A grammar rule: a function from cursor to outcome (§4.2). -/
def Parser (α : Type) : Type := List Char → PRes α

/-- Modelled from the spec (§4.2 sequence / do-each): short-circuits on the
first non-Complete outcome of a sub-rule, propagating it unchanged. -/
def pbind (r : PRes α) (f : List Char → α → PRes β) : PRes β :=
  match r with
  | .complete s a => f s a
  | .fail e => .fail e
  | .abort e => .abort e
  | .incomplete => .incomplete
  | .crashed k => .crashed k

/-- Modelled from the spec (§4.2 ordered alternative): tries both rules from
the same cursor; the first Complete or Abort wins; a recoverable failure tries
the next alternative; insufficient input is remembered but later alternatives
are still tried (so a buffered parse degenerates it to a non-match). -/
def pOr (p q : Parser α) : Parser α := fun s =>
  match p s with
  | .complete s1 v => .complete s1 v
  | .abort e => .abort e
  | .crashed k => .crashed k
  | .fail _ => q s
  | .incomplete =>
    match q s with
    | .complete s1 v => .complete s1 v
    | .abort e => .abort e
    | .crashed k => .crashed k
    | _ => .incomplete

/-- Modelled from the spec (§4.2 optional): Complete with `none` if the inner
rule fails recoverably; Abort (and a panic) propagate unchanged; running out
of input propagates as Incomplete. -/
def popt (p : Parser α) : Parser (Option α) := fun s =>
  match p s with
  | .complete s1 v => .complete s1 (some v)
  | .fail _ => .complete s none
  | .abort e => .abort e
  | .incomplete => .incomplete
  | .crashed k => .crashed k

/-- Modelled from the spec (§4.2 lookahead): tests the inner rule without
consuming input. -/
def ppeek (p : Parser α) : Parser α := fun s =>
  match p s with
  | .complete _ v => .complete s v
  | .fail e => .fail e
  | .abort e => .abort e
  | .incomplete => .incomplete
  | .crashed k => .crashed k

/-- Modelled from the spec (§4.2 negative lookahead): succeeds without
consuming exactly when the inner rule does not match here. -/
def pnot (p : Parser α) : Parser Unit := fun s =>
  match p s with
  | .complete _ _ => .fail "negative lookahead matched"
  | .abort e => .abort e
  | .crashed k => .crashed k
  | _ => .complete s ()

/-- Modelled from the spec (§4.2 must / commit): converts a recoverable
failure of the inner rule into an Abort with the same reason. -/
def pmust (p : Parser α) : Parser α := fun s =>
  match p s with
  | .fail e => .abort e
  | .complete s1 v => .complete s1 v
  | .abort e => .abort e
  | .incomplete => .incomplete
  | .crashed k => .crashed k

/-- Modelled from the spec: the `discard!` combinator, dropping a value. -/
def pdiscard (p : Parser α) : Parser Unit := fun s =>
  match p s with
  | .complete s1 _ => .complete s1 ()
  | .fail e => .fail e
  | .abort e => .abort e
  | .incomplete => .incomplete
  | .crashed k => .crashed k

/-- Modelled from the spec: `eoi` matches exactly at end of input. -/
def eoi : Parser Unit := fun s =>
  match s with
  | [] => .complete [] ()
  | _ :: _ => .fail "Expected end of input"

/-- Literal text matcher, character by character: mismatch is a recoverable
failure, running out of input is Incomplete (§4.2). -/
def textTokenGo (t : String) : List Char → List Char → PRes String
  | [], s => .complete s t
  | _ :: _, [] => .incomplete
  | c :: cs, d :: ds =>
    if c = d then textTokenGo t cs ds else .fail ("Expected " ++ t)

/-- Modelled from the spec: the `text_token!` primitive matcher. -/
def textToken (t : String) : Parser String := fun s => textTokenGo t t.data s

/-- Modelled from the spec: the ASCII-digit character-class matcher. -/
def asciiDigit : Parser Char := fun s =>
  match s with
  | [] => .incomplete
  | c :: rest => if c.isDigit then .complete rest c else .fail "Expected digit"

/-- Modelled from the spec (§4.2 until): consumes input up to (but not
including) the first position where the terminator rule matches; if the
terminator never matches before the input ends, the rule is Incomplete. -/
def untilGo (term : Parser α) : List Char → List Char → PRes String
  | s, acc =>
    match term s with
    | .complete _ _ => .complete s (String.mk acc.reverse)
    | .abort e => .abort e
    | .crashed k => .crashed k
    | _ =>
      match s with
      | [] => .incomplete
      | c :: rest => untilGo term rest (c :: acc)

/-- Modelled from the spec: the `until!` combinator, yielding the consumed
span as its value. -/
def untilP (term : Parser α) : Parser String := fun s => untilGo term s []

/-- Fuel-driven loop of `repeat!`: collects Completes until a non-match; the
fuel is the remaining input length plus one, enough for any rule that consumes
input on success (every repeated rule here consumes at least one character). -/
def prepeatGo (p : Parser α) : Nat → List Char → List α → PRes (List α)
  | 0, s, acc => .complete s acc.reverse
  | n + 1, s, acc =>
    match p s with
    | .complete s1 v => prepeatGo p n s1 (v :: acc)
    | .abort e => .abort e
    | .crashed k => .crashed k
    | _ => .complete s acc.reverse

/-- Modelled from the spec (§4.2 repeat, zero or more): a non-match ends the
repetition (an empty sequence is a success); an Abort propagates. -/
def prepeat (p : Parser α) : Parser (List α) := fun s =>
  prepeatGo p (s.length + 1) s []

/-- Fuel-driven loop of `separated!`: repeatedly a separator then an element,
backtracking to before the separator when either no longer matches. -/
def psepGo (sep : Parser β) (elem : Parser α) :
    Nat → List Char → List α → PRes (List α)
  | 0, s, acc => .complete s acc.reverse
  | n + 1, s, acc =>
    match sep s with
    | .complete s1 _ =>
      match elem s1 with
      | .complete s2 v => psepGo sep elem n s2 (v :: acc)
      | .abort e => .abort e
      | .crashed k => .crashed k
      | _ => .complete s acc.reverse
    | .abort e => .abort e
    | .crashed k => .crashed k
    | _ => .complete s acc.reverse

/-- Modelled from the spec (§4.4): `separated!` — one or more elements
separated by single occurrences of the separator; the first element is
mandatory. -/
def psep (sep : Parser β) (elem : Parser α) : Parser (List α) := fun s =>
  match elem s with
  | .complete s1 v => psepGo sep elem (s1.length + 1) s1 [v]
  | .fail e => .fail e
  | .abort e => .abort e
  | .incomplete => .incomplete
  | .crashed k => .crashed k

/-- Ordered alternative over a vocabulary of literal tokens, as written with
`either!(text_token!(..), ...)` in the source. -/
def firstOf : List String → Parser String
  | [], _ => .fail "no alternative matched"
  | t :: ts, s =>
    match textToken t s with
    | .complete s1 v => .complete s1 v
    | .abort e => .abort e
    | .crashed k => .crashed k
    | .fail _ => firstOf ts s
    | .incomplete =>
      match firstOf ts s with
      | .complete s1 v => .complete s1 v
      | .abort e => .abort e
      | .crashed k => .crashed k
      | _ => .incomplete

/-- Modelled from the spec (§3): an exact non-negative rational with
numerator and denominator, as `num_rational`'s `Ratio<u32>` (recipes/src/unit.rs
is not under src/).  Digit values always fit in `u32` when constructed through
the grammar, so plain naturals carry them. -/
structure QRatio where
  num : Nat
  den : Nat
deriving DecidableEq

/-- Modelled from the spec (§3, §7): `Ratio::new` of the num_rational crate
reduces the fraction on construction; a zero denominator is its documented
error condition, surfacing as a panic — modelled as `none`. -/
def QRatio.new (n d : Nat) : Option QRatio :=
  if d = 0 then none else some ⟨n / Nat.gcd n d, d / Nat.gcd n d⟩

/-- Modelled from the spec (§3): a Quantity is an exact whole number, an exact
fraction, or their sum (a mixed number); recipes/src/unit.rs is not under
src/. -/
inductive Quantity where
  | whole (n : Nat)
  | frac (r : QRatio)
  | mixed (n : Nat) (r : QRatio)
deriving DecidableEq

/-- Modelled from the spec (§3): exact addition of quantities — whole+whole,
fraction+fraction with common-denominator reduction, whole+fraction as a mixed
number.  The grammar only ever adds a whole number and a fraction (the mixed
form of `quantity`); the remaining cases follow the same scheme. -/
def qadd : Quantity → Quantity → Quantity
  | .whole a, .whole b => .whole (a + b)
  | .whole a, .frac r => .mixed a r
  | .frac r, .whole a => .mixed a r
  | .frac r1, .frac r2 =>
    .frac ((QRatio.new (r1.num * r2.den + r2.num * r1.den) (r1.den * r2.den)).getD ⟨0, 0⟩)
  | .mixed a r1, .frac r2 => .mixed a ((QRatio.new (r1.num * r2.den + r2.num * r1.den) (r1.den * r2.den)).getD ⟨0, 0⟩)
  | .frac r2, .mixed a r1 => .mixed a ((QRatio.new (r1.num * r2.den + r2.num * r1.den) (r1.den * r2.den)).getD ⟨0, 0⟩)
  | .mixed a r, .whole b => .mixed (a + b) r
  | .whole b, .mixed a r => .mixed (a + b) r
  | .mixed a r1, .mixed b r2 =>
    .mixed (a + b) ((QRatio.new (r1.num * r2.den + r2.num * r1.den) (r1.den * r2.den)).getD ⟨0, 0⟩)

/-- Modelled from the spec (§3): the volume unit tags, each wrapping a
quantity (recipes/src/unit.rs is not under src/). -/
inductive VolumeMeasure where
  | tsp (q : Quantity)
  | tbsp (q : Quantity)
  | floz (q : Quantity)
  | ml (q : Quantity)
  | ltr (q : Quantity)
  | cup (q : Quantity)
  | qrt (q : Quantity)
  | pint (q : Quantity)
  | gal (q : Quantity)
deriving DecidableEq

/-- Modelled from the spec (§3): the weight unit tags, each wrapping a
quantity. -/
inductive WeightMeasure where
  | pound (q : Quantity)
  | oz (q : Quantity)
  | kilogram (q : Quantity)
  | gram (q : Quantity)
deriving DecidableEq

/-- Modelled from the spec (§3): a Measurement is volume, weight, or a bare
count. -/
inductive Measure where
  | volume (v : VolumeMeasure)
  | weight (w : WeightMeasure)
  | count (q : Quantity)
deriving DecidableEq

/-- Modelled from the spec (§3): an ingredient — canonicalized name, optional
parenthesized modifier, a measurement, and the trailing category string that
`Ingredient::new` receives empty (recipes/src/lib.rs is not under src/). -/
structure Ingredient where
  name : String
  modifier : Option String
  measure : Measure
  category : String
deriving DecidableEq

/-- Modelled from the spec: the `Ingredient::new` constructor stores its
arguments verbatim. -/
def Ingredient.new (name : String) (modifier : Option String)
    (measure : Measure) (category : String) : Ingredient :=
  ⟨name, modifier, measure, category⟩

/-- Modelled from the spec (§3): a step — optional duration (whole seconds),
free-text instructions, ordered ingredients. -/
structure Step where
  duration : Option Nat
  instructions : String
  ingredients : List Ingredient
deriving DecidableEq

/-- Modelled from the spec: `Step::new(dur, desc)` stores the duration and
instructions with no ingredients yet. -/
def Step.new (dur : Option Nat) (desc : String) : Step := ⟨dur, desc, []⟩

/-- Modelled from the spec: `with_ingredients` replaces the ingredient list. -/
def Step.with_ingredients (st : Step) (ings : List Ingredient) : Step :=
  { st with ingredients := ings }

/-- Modelled from the spec (§3): a document — title, optional description,
ordered steps. -/
structure Recipe where
  title : String
  description : Option String
  steps : List Step
deriving DecidableEq

/-- Modelled from the spec: `Recipe::new(title, desc)` stores title and
description with no steps yet. -/
def Recipe.new (title : String) (desc : Option String) : Recipe :=
  ⟨title, desc, []⟩

/-- Modelled from the spec: `with_steps` replaces the step list. -/
def Recipe.with_steps (r : Recipe) (steps : List Step) : Recipe :=
  { r with steps := steps }

/-- Modelled from the spec (§3): ASCII lowercasing of a character, as
`str::to_lowercase` acts on the all-ASCII unit vocabulary. -/
def charLower (c : Char) : Char :=
  if 65 ≤ c.toNat && c.toNat ≤ 90 then Char.ofNat (c.toNat + 32) else c

/-- Modelled from the spec (§3): `str::to_lowercase` on ASCII text. -/
def strLower (s : String) : String := String.mk (s.data.map charLower)

/-- Modelled from the spec (§4.3): the Inflector crate's `to_singular`, as the
spec uses it — every accepted plural spelling folds to its canonical singular
by dropping the trailing `s`; words not ending in a single `s` are unchanged. -/
def toSingular (s : String) : String :=
  match s.data.reverse with
  | 's' :: 's' :: _ => s
  | 's' :: _ => String.mk s.data.dropLast
  | _ => s

/-- Modelled from the spec (§4.4): `str::trim` — leading and trailing ASCII
whitespace removed. -/
def isTrimChar (c : Char) : Bool := c = ' ' || c = '\t' || c = '\r' || c = '\n'

/-- Modelled from the spec (§4.4): `str::trim` on ASCII text. -/
def strTrim (s : String) : String :=
  String.mk (((s.data.dropWhile isTrimChar).reverse.dropWhile isTrimChar).reverse)

/-- The whitespace characters of `ws` in parse.rs: space, tab, carriage
return (newline deliberately excluded). -/
def isWsChar (c : Char) : Bool := c = ' ' || c = '\t' || c = '\r'

/-- Rule `ws` of parse.rs: `consume_all!` over the whitespace characters — consumes
as many as are present, zero included, and always completes. -/
def ws : Parser String := fun s =>
  .complete (s.dropWhile isWsChar) (String.mk (s.takeWhile isWsChar))

/-- Matcher `consume_all!(ascii_digit)` of `num` in parse.rs: the maximal (possibly
empty) digit run. -/
def digitRun : Parser String := fun s =>
  .complete (s.dropWhile Char.isDigit) (String.mk (s.takeWhile Char.isDigit))

/-- Base-10 value of a digit run. -/
def natOfDigits (cs : List Char) : Nat :=
  cs.foldl (fun a c => a * 10 + (c.toNat - 48)) 0

/-- Conversion `u32::from_str` of `num` in parse.rs: the digit run's value when it fits
in an unsigned 32-bit integer, `none` (an unwrap panic) otherwise. -/
def u32OfDigits (cs : List Char) : Option Nat :=
  let v := natOfDigits cs
  if v < 4294967296 then some v else none

/-- Rule `num` of parse.rs (lines 166-172): peek one ASCII digit, consume the whole
digit run, convert with `u32::from_str(..).unwrap()` — the unwrap panics when
the run denotes a value outside `u32`. -/
def num : Parser Nat := fun s =>
  pbind (ppeek asciiDigit s) fun s1 _ =>
  pbind (digitRun s1) fun s2 run =>
  match u32OfDigits run.data with
  | some v => .complete s2 v
  | none => .crashed .overflow

/-- Rule `ratio` of parse.rs (lines 174-184): integer, `/`, integer, then
`Ratio::new` — which panics on a zero denominator. -/
def ratio : Parser QRatio := fun s =>
  pbind (num s) fun s1 n =>
  pbind (textToken "/" s1) fun s2 _ =>
  pbind (num s2) fun s3 d =>
  match QRatio.new n d with
  | some r => .complete s3 r
  | none => .crashed .zeroDenominator

/-- The unit-token vocabulary of `unit` in parse.rs (lines 186-219), in the
source's alternative order (longer aliases before their prefixes). -/
def unitTokens : List String :=
  ["tsps", "tsp", "tbsps", "tbsp", "floz", "ml", "ltr", "lbs", "lb", "oz",
   "cups", "cup", "qrts", "qrt", "quarts", "quart", "pints", "pint", "pnt",
   "gals", "gal", "cnt", "kilograms", "kilogram", "kg", "grams", "gram", "g"]

/-- Rule `unit` of parse.rs: one vocabulary token, trailing whitespace consumption,
then lowercasing and singularization of the matched token. -/
def unit : Parser String := fun s =>
  pbind (firstOf unitTokens s) fun s1 u =>
  pbind (ws s1) fun s2 _ =>
  .complete s2 (toSingular (strLower u))

/-- Rule `quantity` of parse.rs (lines 222-241): mixed number (integer, whitespace,
fraction, whitespace), else bare fraction, else bare integer — in that
order. -/
def quantity : Parser Quantity :=
  pOr
    (fun s =>
      pbind (num s) fun s1 w =>
      pbind (ws s1) fun s2 _ =>
      pbind ( ratio s2) fun s3 f =>
      pbind (ws s3) fun s4 _ =>
      .complete s4 (qadd (.whole w) (.frac f)))
    (pOr
      (fun s =>
        pbind ( ratio s) fun s1 f =>
        pbind (ws s1) fun s2 _ =>
        .complete s2 (.frac f))
      (fun s =>
        pbind (num s) fun s1 w =>
        pbind (ws s1) fun s2 _ =>
        .complete s2 (.whole w)))

/-- Rule `measure_parts` of parse.rs (lines 244-256): a quantity, an optional
(whitespace then unit token), trailing whitespace. -/
def measure_parts : Parser (Quantity × Option String) := fun s =>
  pbind (quantity s) fun s1 q =>
  pbind (popt (fun t => pbind (ws t) fun t1 _ => unit t1) s1) fun s2 uo =>
  pbind (ws s2) fun s3 _ =>
  .complete s3 (q, uo)

/-- The unit-tag to Measurement mapping inside `measure` of parse.rs (lines
258-295); `none` is the `unreachable!()` arm. -/
def measureLookup (u : String) (q : Quantity) : Option Measure :=
  match u with
  | "tbsp" => some (.volume (.tbsp q))
  | "tsp" => some (.volume (.tsp q))
  | "floz" => some (.volume (.floz q))
  | "ml" => some (.volume (.ml q))
  | "ltr" | "liter" => some (.volume (.ltr q))
  | "cup" | "cp" => some (.volume (.cup q))
  | "qrt" | "quart" => some (.volume (.qrt q))
  | "pint" | "pnt" => some (.volume (.pint q))
  | "gal" => some (.volume (.gal q))
  | "cnt" | "count" => some (.count q)
  | "lb" => some (.weight (.pound q))
  | "oz" => some (.weight (.oz q))
  | "kg" | "kilogram" => some (.weight (.kilogram q))
  | "g" | "gram" => some (.weight (.gram q))
  | _ => none

/-- Rule `measure` of parse.rs: on complete `measure_parts`, map the optional unit
token through the Measurement table (`unreachable!()` — a panic — on an
unmapped token), defaulting to Count; other outcomes propagate unchanged. -/
def measure : Parser Measure := fun s =>
  match measure_parts s with
  | .complete i (q, uo) =>
    (match uo with
     | some u =>
       (match measureLookup u q with
        | some m => .complete i m
        | none => .crashed .unreachableUnit)
     | none => .complete i (.count q))
  | .fail e => .fail e
  | .abort e => .abort e
  | .incomplete => .incomplete
  | .crashed k => .crashed k

/-- Rule `ingredient_name` of parse.rs (lines 299-308): text up to a newline, end
of input, or `(`, trimmed and singularized. -/
def ingredient_name : Parser String := fun s =>
  pbind (untilP (pOr (pdiscard (textToken "\n"))
                     (pOr eoi (pdiscard (textToken "(")))) s) fun s1 n =>
  .complete s1 (toSingular (strTrim n))

/-- Rule `ingredient_modifier` of parse.rs: a parenthesized span. -/
def ingredient_modifier : Parser String := fun s =>
  pbind (textToken "(" s) fun s1 _ =>
  pbind (untilP (textToken ")") s1) fun s2 m =>
  pbind (textToken ")" s2) fun s3 _ =>
  .complete s3 m

/-- Rule `ingredient` of parse.rs: optional leading whitespace, a measure, a name,
an optional modifier, optional trailing whitespace. -/
def ingredient : Parser Ingredient := fun s =>
  pbind (popt ws s) fun s1 _ =>
  pbind (measure s1) fun s2 m =>
  pbind (ingredient_name s2) fun s3 n =>
  pbind (popt ingredient_modifier s3) fun s4 modif =>
  pbind (popt ws s4) fun s5 _ =>
  .complete s5 (Ingredient.new n modif m "")

/-- Rule `ingredient_list` of parse.rs: one or more ingredients separated by single
newlines. -/
def ingredient_list : Parser (List Ingredient) := psep (textToken "\n") ingredient

/-- Rule `para_separator` of parse.rs (lines 63-71): newline, optional whitespace,
newline. -/
def para_separator : Parser String := fun s =>
  pbind (textToken "\n" s) fun s1 _ =>
  pbind (popt ws s1) fun s2 _ =>
  pbind (textToken "\n" s2) fun s3 _ =>
  .complete s3 ""

/-- Rule `title` of parse.rs (lines 52-61): the literal `title:`, optional
whitespace, the text up to a newline, then that newline. -/
def title : Parser String := fun s =>
  pbind (textToken "title:" s) fun s1 _ =>
  pbind (popt ws s1) fun s2 _ =>
  pbind (untilP (textToken "\n") s2) fun s3 t =>
  pbind (textToken "\n" s3) fun s4 _ =>
  .complete s4 t

/-- Rule `description` of parse.rs (lines 73-79): text up to a paragraph separator
or end of input. -/
def description : Parser String :=
  untilP (pOr (pdiscard para_separator) eoi)

/-- The time-unit vocabulary of `step_time` in parse.rs, in source order. -/
def timeUnitTokens : List String := ["ms", "sec", "s", "min", "m", "hrs", "hr", "h"]

/-- The unit-to-seconds conversion of `step_time` in parse.rs (lines 93-105):
`u32` arithmetic — `ms` truncating-divides by 1000, minutes multiply by 60,
hours by 3600 (an out-of-range product is an overflow panic in a checked
build), and the `unreachable!()` arm covers tokens outside the vocabulary. -/
def timeSecs (u : String) (cnt : Nat) : Except CrashKind Nat :=
  match u with
  | "ms" => .ok (cnt / 1000)
  | "s" | "sec" => .ok cnt
  | "m" | "min" => if cnt * 60 < 4294967296 then .ok (cnt * 60) else .error .overflow
  | "h" | "hr" | "hrs" => if cnt * 3600 < 4294967296 then .ok (cnt * 3600) else .error .overflow
  | _ => .error .unreachableUnit

/-- Rule `step_time` of parse.rs (lines 81-108): a number, optional whitespace, a
time-unit token, converted to whole seconds. -/
def step_time : Parser Nat := fun s =>
  pbind (num s) fun s1 cnt =>
  pbind (popt ws s1) fun s2 _ =>
  pbind (firstOf timeUnitTokens s2) fun s3 u =>
  match timeSecs u cnt with
  | .ok d => .complete s3 d
  | .error k => .crashed k

/-- Rule `step_prefix` of parse.rs (lines 110-123): the literal `step:`, an
optional (whitespace then duration), optional whitespace, then a mandatory
paragraph separator. -/
def step_prefix : Parser (Option Nat) := fun s =>
  pbind (textToken "step:" s) fun s1 _ =>
  pbind (popt (fun t => pbind (ws t) fun t1 _ => step_time t1) s1) fun s2 dur =>
  pbind (popt ws s2) fun s3 _ =>
  pbind (para_separator s3) fun s4 _ =>
  .complete s4 dur

/-- Rule `step` of parse.rs (lines 125-135): the step header, a committed
(`must!`) ingredient list, a paragraph separator, instructions, then another
paragraph separator or end of input. -/
def step : Parser Step := fun s =>
  pbind ( step_prefix s) fun s1 dur =>
  pbind (pmust ingredient_list s1) fun s2 ings =>
  pbind (para_separator s2) fun s3 _ =>
  pbind (description s3) fun s4 desc =>
  pbind (pOr (pdiscard para_separator) eoi s4) fun s5 _ =>
  .complete s5 ((Step.new dur desc).with_ingredients ings)

/-- Rule `step_list` of parse.rs (lines 137-148): one mandatory (`must!`) first
step, then zero or more further steps. -/
def step_list : Parser (List Step) := fun s =>
  pbind (pmust step s) fun s1 first =>
  pbind (prepeat step s1) fun s2 rest =>
  .complete s2 (first :: rest)

/-- The description slot of `recipe` in parse.rs (lines 41-45): optionally, a
negative lookahead for the step header followed by the description text. -/
def descPart : Parser (Option String) :=
  popt (fun s =>
    pbind (ppeek (pnot step_prefix) s) fun s1 _ =>
    description s1)

/-- Rule `recipe` of parse.rs (lines 36-50): title, optional paragraph separator,
optional guarded description, optional paragraph separator, step list. -/
def recipe : Parser Recipe := fun s =>
  pbind (title s) fun s1 t =>
  pbind (popt para_separator s1) fun s2 _ =>
  pbind (descPart s2) fun s3 d =>
  pbind (popt para_separator s3) fun s4 _ =>
  pbind ( step_list s4) fun s5 steps =>
  .complete s5 ((Recipe.new t d).with_steps steps)

/-- The observable outcome of `as_recipe`: a recipe, an error string, or a
panic escaping the call. -/
inductive RecipeResult where
  | ok (r : Recipe)
  | err (msg : String)
  | crashed (k : CrashKind)
deriving DecidableEq

/-- The match of `as_recipe` in parse.rs (lines 28-34): Abort and Fail both
become `Parse Failure: {:?}` of the carried error, Incomplete becomes a fixed
message, Complete yields the recipe (the unconsumed remainder is dropped). -/
def formatResult : PRes Recipe → RecipeResult
  | .complete _ r => .ok r
  | .fail e => .err ("Parse Failure: " ++ e)
  | .abort e => .err ("Parse Failure: " ++ e)
  | .incomplete => .err "Incomplete recipe can not parse"
  | .crashed k => .crashed k

/-- Function `as_recipe` of parse.rs: run `recipe` on the whole input. -/
def as_recipe (i : String) : RecipeResult := formatResult (recipe i.data)

/-- Inversion of the sequencing combinator: a complete sequence factors
through a complete first rule. -/
theorem pbind_complete_inv {α β : Type} {r : PRes α} {f : List Char → α → PRes β}
    {s : List Char} {b : β} (h : pbind r f = .complete s b) :
    ∃ s' a, r = .complete s' a ∧ f s' a = .complete s b := by
  cases r with
  | complete s2 a => exact ⟨s2, a, rfl, h⟩
  | fail e => simp [pbind] at h
  | abort e => simp [pbind] at h
  | incomplete => simp [pbind] at h
  | crashed k => simp [pbind] at h

/-- Inversion of the sequencing combinator for panics: a crash comes from the
first rule or from the continuation of a complete first rule. -/
theorem pbind_crashed_inv {α β : Type} {r : PRes α} {f : List Char → α → PRes β}
    {k : CrashKind} (h : pbind r f = .crashed k) :
    r = .crashed k ∨ ∃ s' a, r = .complete s' a ∧ f s' a = .crashed k := by
  cases r with
  | complete s2 a => exact Or.inr ⟨s2, a, rfl, h⟩
  | fail e => simp [pbind] at h
  | abort e => simp [pbind] at h
  | incomplete => simp [pbind] at h
  | crashed k2 => simp [pbind] at h; exact Or.inl (by rw [h])

/-- A committed rule completes exactly when the inner rule completes. -/
theorem pmust_complete_inv {α : Type} {p : Parser α} {s s' : List Char} {v : α}
    (h : pmust p s = .complete s' v) : p s = .complete s' v := by
  unfold pmust at h
  cases hp : p s <;> rw [hp] at h <;> simp_all

/-- A committed rule turns a recoverable failure into an Abort with the same
reason. -/
theorem pmust_fail {α : Type} {p : Parser α} {s : List Char} {e : String}
    (h : p s = .fail e) : pmust p s = .abort e := by
  unfold pmust
  rw [h]

/-- Inversion of `optional!` completing with a value. -/
theorem popt_some_inv {α : Type} {p : Parser α} {s s' : List Char} {v : α}
    (h : popt p s = .complete s' (some v)) : p s = .complete s' v := by
  unfold popt at h
  cases hp : p s <;> rw [hp] at h <;> simp_all

/-- A panic propagates unchanged through `optional!`. -/
theorem popt_crashed_inv {α : Type} {p : Parser α} {s : List Char} {k : CrashKind}
    (h : popt p s = .crashed k) : p s = .crashed k := by
  unfold popt at h
  cases hp : p s <;> rw [hp] at h <;> simp_all

/-- A panic out of an ordered alternative comes from one of its arms. -/
theorem pOr_crashed_inv {α : Type} {p q : Parser α} {s : List Char} {k : CrashKind}
    (h : pOr p q s = .crashed k) : p s = .crashed k ∨ q s = .crashed k := by
  unfold pOr at h
  cases hp : p s <;> rw [hp] at h
  · exact absurd h (by simp)
  · exact Or.inr h
  · exact absurd h (by simp)
  · cases hq : q s <;> rw [hq] at h
    · exact absurd h (by simp)
    · exact absurd h (by simp)
    · exact absurd h (by simp)
    · exact absurd h (by simp)
    · injection h with h1; subst h1; exact Or.inr rfl
  · injection h with h1; subst h1; exact Or.inl rfl

/-- The literal matcher yields the literal itself as its value. -/
theorem textTokenGo_complete_val {t : String} {p s s' : List Char} {v : String}
    (h : textTokenGo t p s = .complete s' v) : v = t := by
  induction p generalizing s with
  | nil => simp [textTokenGo] at h; exact h.2.symm
  | cons c cs ih =>
    cases s with
    | nil => simp [textTokenGo] at h
    | cons d ds =>
      unfold textTokenGo at h
      by_cases hc : c = d
      · rw [if_pos hc] at h; exact ih h
      · rw [if_neg hc] at h; simp at h

/-- The `text_token!` matcher yields the literal itself as its value. -/
theorem textToken_complete_val {t : String} {s s' : List Char} {v : String}
    (h : textToken t s = .complete s' v) : v = t :=
  textTokenGo_complete_val h

/-- The literal matcher never panics. -/
theorem textTokenGo_ncr {t : String} {p s : List Char} {k : CrashKind} :
    textTokenGo t p s ≠ .crashed k := by
  induction p generalizing s with
  | nil => simp [textTokenGo]
  | cons c cs ih =>
    cases s with
    | nil => simp [textTokenGo]
    | cons d ds =>
      unfold textTokenGo
      by_cases hc : c = d
      · rw [if_pos hc]; exact ih
      · rw [if_neg hc]; simp

/-- The `text_token!` matcher never panics. -/
theorem textToken_ncr {t : String} {s : List Char} {k : CrashKind} :
    textToken t s ≠ .crashed k :=
  textTokenGo_ncr

/-- A completed token alternative yields one of its vocabulary tokens. -/
theorem firstOf_complete_mem {ts : List String} {s s' : List Char} {v : String}
    (h : firstOf ts s = .complete s' v) : v ∈ ts := by
  induction ts with
  | nil => simp [firstOf] at h
  | cons t rest ih =>
    unfold firstOf at h
    cases ht : textToken t s <;> rw [ht] at h
    · simp at h
      obtain ⟨h1, h2⟩ := h
      exact (textToken_complete_val (h2 ▸ ht)) ▸ List.mem_cons_self t rest
    · exact List.mem_cons_of_mem t (ih h)
    · simp at h
    · cases hr : firstOf rest s <;> rw [hr] at h <;> simp_all
    · simp at h

/-- A token alternative never panics. -/
theorem firstOf_ncr {ts : List String} {s : List Char} {k : CrashKind} :
    firstOf ts s ≠ .crashed k := by
  induction ts with
  | nil => simp [firstOf]
  | cons t rest ih =>
    unfold firstOf
    cases ht : textToken t s
    · simp
    · exact ih
    · simp
    · cases hr : firstOf rest s
      · simp
      · simp
      · simp
      · simp
      · intro hh
        injection hh with h1
        exact ih (by rw [hr, h1])
    · exact absurd ht textToken_ncr

/-- Rule `ws` always completes (zero characters are enough). -/
theorem ws_eq (s : List Char) :
    ws s = .complete (s.dropWhile isWsChar) (String.mk (s.takeWhile isWsChar)) := rfl

/-- A completed `num` value fits in an unsigned 32-bit integer: the only
completing branch is guarded by the `u32` bound. -/
theorem num_complete_lt {s s' : List Char} {v : Nat}
    (h : num s = .complete s' v) : v < 4294967296 := by
  unfold num at h
  cases s with
  | nil => simp [ppeek, asciiDigit, pbind] at h
  | cons c r =>
    by_cases hc : c.isDigit
    · simp only [ppeek, asciiDigit, hc, if_pos, pbind, digitRun] at h
      revert h
      unfold u32OfDigits
      by_cases hv : natOfDigits (String.mk ((c :: r).takeWhile Char.isDigit)).data < 4294967296
      · rw [if_pos hv]
        intro h
        injection h with h1 h2
        exact h2 ▸ hv
      · rw [if_neg hv]
        intro h
        simp at h
    · simp [ppeek, asciiDigit, hc, pbind] at h

/-- The only panic of `num` is the `u32` overflow of its unwrap. -/
theorem num_crashed_inv {s : List Char} {k : CrashKind}
    (h : num s = .crashed k) : k = .overflow := by
  unfold num at h
  cases s with
  | nil => simp [ppeek, asciiDigit, pbind] at h
  | cons c r =>
    by_cases hc : c.isDigit
    · simp only [ppeek, asciiDigit, hc, if_pos, pbind, digitRun] at h
      revert h
      unfold u32OfDigits
      by_cases hv : natOfDigits (String.mk ((c :: r).takeWhile Char.isDigit)).data < 4294967296
      · rw [if_pos hv]
        intro h
        simp at h
      · rw [if_neg hv]
        intro h
        injection h with h1
        exact h1.symm
    · simp [ppeek, asciiDigit, hc, pbind] at h

/-- A reduced rational constructed by `Ratio::new` keeps a non-zero
denominator. -/
theorem QRatio_new_den {n d : Nat} {r : QRatio}
    (h : QRatio.new n d = some r) : r.den ≠ 0 := by
  unfold QRatio.new at h
  by_cases hd : d = 0
  · rw [if_pos hd] at h; simp at h
  · rw [if_neg hd] at h
    injection h with h1
    have hdp : 0 < d := Nat.pos_of_ne_zero hd
    have hg : 0 < Nat.gcd n d := Nat.gcd_pos_of_pos_right n hdp
    have hle : Nat.gcd n d ≤ d := Nat.le_of_dvd hdp (Nat.gcd_dvd_right n d)
    have hpos : 0 < d / Nat.gcd n d := Nat.div_pos hle hg
    rw [← h1]
    show d / Nat.gcd n d ≠ 0
    omega

/-- The panics of `ratio` are the `num` overflow and the zero-denominator
error of `Ratio::new`. -/
theorem ratio_crashed_inv {s : List Char} {k : CrashKind}
    (h : ratio s = .crashed k) : k = .overflow ∨ k = .zeroDenominator := by
  unfold ratio at h
  rcases pbind_crashed_inv h with hn | ⟨s1, n, hn, h1⟩
  · exact Or.inl (num_crashed_inv hn)
  · rcases pbind_crashed_inv h1 with ht | ⟨s2, x, ht, h2⟩
    · exact absurd ht textToken_ncr
    · rcases pbind_crashed_inv h2 with hd | ⟨s3, d, hd, h3⟩
      · exact Or.inl (num_crashed_inv hd)
      · revert h3
        cases QRatio.new n d
        · intro h3; injection h3 with h1; exact Or.inr h1.symm
        · intro h3; simp at h3

/-- The panics of `quantity` are those of its numeric sub-rules. -/
theorem quantity_crashed_inv {s : List Char} {k : CrashKind}
    (h : quantity s = .crashed k) : k = .overflow ∨ k = .zeroDenominator := by
  unfold quantity at h
  rcases pOr_crashed_inv h with h1 | h1
  · rcases pbind_crashed_inv h1 with hn | ⟨t1, n, hn, h2⟩
    · exact Or.inl (num_crashed_inv hn)
    · rcases pbind_crashed_inv h2 with hw | ⟨t2, x, hw, h3⟩
      · simp [ws] at hw
      · rcases pbind_crashed_inv h3 with hr | ⟨t3, f, hr, h4⟩
        · exact ratio_crashed_inv hr
        · rcases pbind_crashed_inv h4 with hw2 | ⟨t4, y, hw2, h5⟩
          · simp [ws] at hw2
          · simp at h5
  · rcases pOr_crashed_inv h1 with h2 | h2
    · rcases pbind_crashed_inv h2 with hr | ⟨t1, f, hr, h3⟩
      · exact ratio_crashed_inv hr
      · rcases pbind_crashed_inv h3 with hw | ⟨t2, x, hw, h4⟩
        · simp [ws] at hw
        · simp at h4
    · rcases pbind_crashed_inv h2 with hn | ⟨t1, n, hn, h3⟩
      · exact Or.inl (num_crashed_inv hn)
      · rcases pbind_crashed_inv h3 with hw | ⟨t2, x, hw, h4⟩
        · simp [ws] at hw
        · simp at h4

/-- The `unit` rule never panics: its token alternative and whitespace
consumption cannot. -/
theorem unit_ncr {s : List Char} {k : CrashKind} : unit s ≠ .crashed k := by
  intro h
  unfold unit at h
  rcases pbind_crashed_inv h with hf | ⟨s1, u, hf, h1⟩
  · exact firstOf_ncr hf
  · rcases pbind_crashed_inv h1 with hw | ⟨s2, x, hw, h2⟩
    · simp [ws] at hw
    · simp at h2

/-- The panics of `measure_parts` are those of `quantity`. -/
theorem measure_parts_crashed_inv {s : List Char} {k : CrashKind}
    (h : measure_parts s = .crashed k) : k = .overflow ∨ k = .zeroDenominator := by
  unfold measure_parts at h
  rcases pbind_crashed_inv h with hq | ⟨s1, q, hq, h1⟩
  · exact quantity_crashed_inv hq
  · rcases pbind_crashed_inv h1 with ho | ⟨s2, uo, ho, h2⟩
    · have := popt_crashed_inv ho
      rcases pbind_crashed_inv this with hw | ⟨t1, x, hw, h3⟩
      · simp [ws] at hw
      · exact absurd h3 unit_ncr
    · rcases pbind_crashed_inv h2 with hw | ⟨t2, y, hw, h3⟩
      · simp [ws] at hw
      · simp at h3

/-- When `measure_parts` completes with a unit token, that token was produced
by the `unit` rule. -/
theorem measure_parts_some_unit {s s3 : List Char} {q : Quantity} {u : String}
    (h : measure_parts s = .complete s3 (q, some u)) :
    ∃ sa sb, unit sa = .complete sb u := by
  unfold measure_parts at h
  rcases pbind_complete_inv h with ⟨s1, q1, hq, h1⟩
  rcases pbind_complete_inv h1 with ⟨s2, uo, ho, h2⟩
  rcases pbind_complete_inv h2 with ⟨t1, x, hw, h3⟩
  simp at h3
  obtain ⟨-, -, huo⟩ := h3
  rw [huo] at ho
  have hin := popt_some_inv ho
  rcases pbind_complete_inv hin with ⟨ta, y, hwy, hun⟩
  exact ⟨ta, s2, hun⟩

/-- Every element collected by the repetition loop satisfies any property
preserved by completions of the repeated rule. -/
theorem prepeatGo_mem {α : Type} {p : Parser α} {P : α → Prop}
    (hp : ∀ s s' v, p s = .complete s' v → P v) :
    ∀ (fuel : Nat) (s s' : List Char) (acc l : List α),
      (∀ x ∈ acc, P x) → prepeatGo p fuel s acc = .complete s' l → ∀ x ∈ l, P x := by
  intro fuel
  induction fuel with
  | zero =>
    intro s s' acc l hacc h x hx
    unfold prepeatGo at h
    injection h with h1 h2
    rw [← h2] at hx
    exact hacc x (List.mem_reverse.mp hx)
  | succ n ih =>
    intro s s' acc l hacc h x hx
    unfold prepeatGo at h
    cases hps : p s <;> rw [hps] at h
    · exact ih _ _ _ _ (by
        intro y hy
        rcases List.mem_cons.mp hy with rfl | hy2
        · exact hp _ _ _ hps
        · exact hacc y hy2) h x hx
    · injection h with h1 h2
      rw [← h2] at hx
      exact hacc x (List.mem_reverse.mp hx)
    · simp at h
    · injection h with h1 h2
      rw [← h2] at hx
      exact hacc x (List.mem_reverse.mp hx)
    · simp at h

/-- The result of `repeat!` consists of completions of the repeated rule. -/
theorem prepeat_mem {α : Type} {p : Parser α} {P : α → Prop}
    (hp : ∀ s s' v, p s = .complete s' v → P v)
    {s s' : List Char} {l : List α}
    (h : prepeat p s = .complete s' l) : ∀ x ∈ l, P x :=
  prepeatGo_mem hp _ _ _ _ _ (by intro x hx; simp at hx) h

/-- The separated-list loop never discards the elements already collected. -/
theorem psepGo_ne_nil {α β : Type} {sep : Parser β} {elem : Parser α} :
    ∀ (fuel : Nat) (s s' : List Char) (acc l : List α),
      acc ≠ [] → psepGo sep elem fuel s acc = .complete s' l → l ≠ [] := by
  intro fuel
  induction fuel with
  | zero =>
    intro s s' acc l hacc h
    unfold psepGo at h
    injection h with h1 h2
    rw [← h2]
    simpa using hacc
  | succ n ih =>
    intro s s' acc l hacc h
    unfold psepGo at h
    cases hsep : sep s
    case complete s1 v1 =>
      simp only [hsep] at h
      cases he : elem s1
      case complete s2 v2 =>
        simp only [he] at h
        exact ih _ _ _ _ (by simp) h
      case fail e2 =>
        simp only [he] at h
        injection h with h1 h2
        rw [← h2]; simpa using hacc
      case abort e2 => simp only [he] at h; exact absurd h (by simp)
      case incomplete =>
        simp only [he] at h
        injection h with h1 h2
        rw [← h2]; simpa using hacc
      case crashed k2 => simp only [he] at h; exact absurd h (by simp)
    case fail e1 =>
      simp only [hsep] at h
      injection h with h1 h2
      rw [← h2]; simpa using hacc
    case abort e1 => simp only [hsep] at h; exact absurd h (by simp)
    case incomplete =>
      simp only [hsep] at h
      injection h with h1 h2
      rw [← h2]; simpa using hacc
    case crashed k1 => simp only [hsep] at h; exact absurd h (by simp)

/-- A complete `separated!` list is non-empty: the first element is
mandatory. -/
theorem psep_ne_nil {α β : Type} {sep : Parser β} {elem : Parser α}
    {s s' : List Char} {l : List α}
    (h : psep sep elem s = .complete s' l) : l ≠ [] := by
  unfold psep at h
  cases he : elem s <;> rw [he] at h
  · exact psepGo_ne_nil _ _ _ _ _ (by simp) h
  · simp at h
  · simp at h
  · simp at h
  · simp at h

/-- A complete step carries a non-empty ingredient list: the committed
`ingredient_list` is a `separated!` list with a mandatory first element. -/
theorem step_complete_ings {s s' : List Char} {st : Step}
    (h : step s = .complete s' st) : st.ingredients ≠ [] := by
  unfold step at h
  rcases pbind_complete_inv h with ⟨s1, dur, hpre, h1⟩
  rcases pbind_complete_inv h1 with ⟨s2, ings, hing, h2⟩
  rcases pbind_complete_inv h2 with ⟨s3, x1, hpa, h3⟩
  rcases pbind_complete_inv h3 with ⟨s4, d, hde, h4⟩
  rcases pbind_complete_inv h4 with ⟨s5, x2, hor, h5⟩
  simp at h5
  obtain ⟨-, hst⟩ := h5
  have hil : ingredient_list s1 = .complete s2 ings := pmust_complete_inv hing
  have : ings ≠ [] := psep_ne_nil hil
  rw [← hst]
  simpa [Step.new, Step.with_ingredients] using this

/-- A formatted result is `ok` exactly for a complete parse. -/
theorem formatResult_ok_inv {x : PRes Recipe} {r : Recipe}
    (h : formatResult x = .ok r) : ∃ s, x = .complete s r := by
  cases x <;> simp [formatResult] at h
  exact ⟨_, by rw [h]⟩

/-- Every token the `unit` rule can return has an arm in `measure`'s
unit-to-Measurement mapping: the vocabulary after lowercasing and
singularization lands inside the mapping's domain. -/
theorem unit_complete_lookup {s s' : List Char} {u : String}
    (h : unit s = .complete s' u) :
    ∀ q : Quantity, (measureLookup u q).isSome = true := by
  unfold unit at h
  rcases pbind_complete_inv h with ⟨s1, tok, htok, h1⟩
  rcases pbind_complete_inv h1 with ⟨s2, x, hw, h2⟩
  simp at h2
  obtain ⟨-, hu⟩ := h2
  have hmem : tok ∈ unitTokens := firstOf_complete_mem htok
  rw [← hu]
  intro q
  fin_cases hmem <;> rfl

/-- C1 (counterexample): the spec's exact minimal document does not parse.
After `title` consumes its trailing newline, only a single newline precedes
`step:`, so the description production swallows the step header line and the
committed step list aborts on the remaining instructions text. -/
theorem claim1_counterexample :
    as_recipe "title: Toast\n\nstep:\n1 cnt bread\n\nToast it.\n" =
      .err "Parse Failure: Expected step:" := by
  decide

/-- C1 (amended): with a single newline after the title line, a blank line
between the step header and its ingredients, and no trailing newline, the
minimal document parses to exactly the claimed Recipe: title `Toast`,
no description, one step with no duration, one Count ingredient `bread` of
quantity 1, and instructions `Toast it.`. -/
theorem claim1_amended :
    as_recipe "title: Toast\nstep:\n\n1 cnt bread\n\nToast it." =
      .ok ⟨"Toast", none,
           [⟨none, "Toast it.", [⟨"bread", none, .count (.whole 1), ""⟩]⟩]⟩ := by
  decide

/-- C2 (counterexample): a non-first step whose header matches and whose
committed ingredient list parses, but whose following paragraph separator
fails, is silently dropped — the repetition ends and `as_recipe` succeeds with
the earlier steps — rather than aborting the whole document. -/
theorem claim2_counterexample :
    ( step_prefix ("step:\n\n1 cnt y\nZZZ".data) =
        .complete ("1 cnt y\nZZZ".data) none) ∧
    step ("step:\n\n1 cnt y\nZZZ".data) = .fail "Expected \n" ∧
    as_recipe "title: t\nstep:\n\n1 cnt x\n\ninstr\n\nstep:\n\n1 cnt y\nZZZ" =
      .ok ⟨"t", none, [⟨none, "instr", [⟨"x", none, .count (.whole 1), ""⟩]⟩]⟩ := by
  refine ⟨by decide, by decide, by decide⟩

/-- C2 (amended): the committed section is the ingredient list — whenever the
step header matches and the ingredient list fails recoverably, the step
aborts; a recoverable failure of the first step aborts the whole step list;
and an abort reaches the caller as an `as_recipe` error (shown on the spec's
blank-line-after-`step:` example).  A non-first step failing after its
ingredient list is instead dropped, per the counterexample. -/
theorem claim2_amended :
    (∀ s c d e, step_prefix s = .complete c d → ingredient_list c = .fail e →
      step s = .abort e) ∧
    (∀ s e, step s = .fail e → step_list s = .abort e) ∧
    as_recipe "title: t\nstep:\n\n\nX" = .err "Parse Failure: Expected digit" := by
  refine ⟨?_, ?_, by decide⟩
  · intro s c d e h1 h2
    unfold step
    rw [h1]
    show pbind (pmust ingredient_list c) _ = .abort e
    rw [pmust_fail h2]
    rfl
  · intro s e h
    unfold step_list
    rw [pmust_fail h]
    rfl

/-- C2 (witness): the committed-abort behavior at concrete inputs — a step
header followed by a blank line with no ingredients aborts the step, and a
failing first step aborts the step list. -/
theorem claim2_witness :
    step ("step:\n\n\nmore".data) = .abort "Expected digit" ∧
    step_list ("x".data) = .abort "Expected step:" := by
  constructor
  · exact claim2_amended.1 ("step:\n\n\nmore".data) ("\nmore".data) none
      "Expected digit" (by decide) (by decide)
  · exact claim2_amended.2.1 ("x".data) "Expected step:" (by decide)

/-- C3 (counterexample): a document whose quantity is the fraction `1/0` does
not get a returned value from `as_recipe`: `Ratio::new` is evaluated during
the parse and panics on the zero denominator. -/
theorem claim3_counterexample :
    as_recipe "title: t\nstep:\n\n1/0 cnt x\n\nDo." =
      .crashed .zeroDenominator := by
  decide

/-- C3 (amended): the grammar itself never rejects a zero denominator — the
digits parse — but constructing the rational at parse time panics on `1/0`,
so the error escapes as a fault instead of a returned value; every fraction
that does complete has a non-zero denominator. -/
theorem claim3_amended :
    (∀ s s' r, ratio s = .complete s' r → r.den ≠ 0) ∧
    ratio ("1/0".data) = .crashed .zeroDenominator ∧
    ratio ("1/2 ".data) = .complete (" ".data) ⟨1, 2⟩ := by
  refine ⟨?_, by decide, by decide⟩
  intro s s' r h
  unfold ratio at h
  rcases pbind_complete_inv h with ⟨s1, n, hn, h1⟩
  rcases pbind_complete_inv h1 with ⟨s2, x, ht, h2⟩
  rcases pbind_complete_inv h2 with ⟨s3, d, hd, h3⟩
  cases hq : QRatio.new n d
  · simp only [hq] at h3
    exact absurd h3 (by simp)
  · simp only [hq] at h3
    injection h3 with h4 h5
    rw [← h5]
    exact QRatio_new_den hq

/-- C3 (witness): the completed-fraction clause at the concrete input
`1/2`. -/
theorem claim3_witness : (⟨1, 2⟩ : QRatio).den ≠ 0 :=
  claim3_amended.1 ("1/2 ".data) (" ".data) ⟨1, 2⟩ (by decide)

/-- C4: the ingredient line `2 tbsps sugar` parses with the unit
canonicalized to `tbsp` (a Volume Tbsp measurement of quantity 2) and the
ingredient name `sugar`: the longer alias `tbsps` is tried before `tbsp`, so
no dangling `s` is fused onto the name. -/
theorem claim4_longest_match :
    ingredient ("2 tbsps sugar\nX".data) =
      .complete ("\nX".data) ⟨"sugar", none, .volume (.tbsp (.whole 2)), ""⟩ ∧
    unit ("tbsps sugar".data) = .complete ("sugar".data) "tbsp" := by
  refine ⟨by decide, by decide⟩

/-- C5: `step: 2 min` followed by a blank line yields a 120-second duration
and `step: 1500 ms` yields 1 second; the conversion is exact integer
arithmetic — `ms` integer-truncating-divides by 1000, `m`/`min` multiply by
60, `h`/`hr`/`hrs` multiply by 3600 (within the `u32` range of the source's
arithmetic). -/
theorem claim5_durations :
    ( step_prefix ("step: 2 min\n\nX".data) = .complete ("X".data) (some 120)) ∧
    ( step_prefix ("step: 1500 ms\n\nX".data) = .complete ("X".data) (some 1)) ∧
    (∀ cnt : Nat, timeSecs "ms" cnt = .ok (cnt / 1000)) ∧
    (∀ cnt : Nat, cnt * 60 < 4294967296 →
      timeSecs "m" cnt = .ok (cnt * 60) ∧ timeSecs "min" cnt = .ok (cnt * 60)) ∧
    (∀ cnt : Nat, cnt * 3600 < 4294967296 →
      timeSecs "h" cnt = .ok (cnt * 3600) ∧ timeSecs "hr" cnt = .ok (cnt * 3600) ∧
      timeSecs "hrs" cnt = .ok (cnt * 3600)) := by
  refine ⟨by decide, by decide, ?_, ?_, ?_⟩
  · intro cnt
    rfl
  · intro cnt h
    exact ⟨by simp [timeSecs, h], by simp [timeSecs, h]⟩
  · intro cnt h
    exact ⟨by simp [timeSecs, h], by simp [timeSecs, h], by simp [timeSecs, h]⟩

/-- C5 (witness): the conversion clauses at the concrete counts of the
claim. -/
theorem claim5_witness :
    timeSecs "ms" 1500 = .ok 1 ∧ timeSecs "min" 2 = .ok 120 ∧
    timeSecs "hr" 1 = .ok 3600 := by
  refine ⟨?_, ?_, ?_⟩
  · exact claim5_durations.2.2.1 1500
  · exact (claim5_durations.2.2.2.1 2 (by norm_num)).2
  · exact (claim5_durations.2.2.2.2 1 (by norm_num)).2.1

/-- C6 (counterexample): a successful parse whose second paragraph begins
with `step:` can still carry a description — the leftover newline before
`step:` defeats the negative lookahead, and the paragraph is consumed as the
description `"\nstep:"`. -/
theorem claim6_counterexample :
    as_recipe "title: T\n\nstep:\n\nstep:\n\n1 cnt y\n\nDo.\n" =
      .ok ⟨"T", some "\nstep:",
           [⟨none, "Do.\n", [⟨"y", none, .count (.whole 1), ""⟩]⟩]⟩ := by
  decide

/-- C6 (amended): the suppression guard works exactly at the cursor — whenever
the step header production matches at the current position, the guarded
description slot completes with no description and consumes nothing. -/
theorem claim6_amended :
    ∀ s c d, step_prefix s = .complete c d → descPart s = .complete s none := by
  intro s c d h
  have h1 : pnot step_prefix s = .fail "negative lookahead matched" := by
    unfold pnot
    rw [h]
  have h2 : ppeek (pnot step_prefix) s = .fail "negative lookahead matched" := by
    unfold ppeek
    rw [h1]
  have h3 : (fun t => pbind (ppeek (pnot step_prefix) t) fun t1 _ => description t1) s
      = .fail "negative lookahead matched" := by
    simp only []
    rw [h2]
    rfl
  unfold descPart popt
  rw [h3]

/-- C6 (witness): the suppression at a concrete cursor where `step:` parses
as a step header. -/
theorem claim6_witness :
    descPart ("step:\n\nX".data) = .complete ("step:\n\nX".data) none :=
  claim6_amended ("step:\n\nX".data) ("X".data) none (by decide)

/-- C7 (counterexample): `as_recipe` can succeed with an empty title — the
`until` of `title` matches a zero-length span — so the non-empty-title
invariant fails. -/
theorem claim7_counterexample :
    as_recipe "title:\nstep:\n\n1 cnt x\n\nDo." =
      .ok ⟨"", none, [⟨none, "Do.", [⟨"x", none, .count (.whole 1), ""⟩]⟩]⟩ := by
  decide

/-- C7 (amended): on every successful parse the step list is non-empty and
every step's ingredient list is non-empty; the title, however, may be empty
text. -/
theorem claim7_amended :
    ∀ (i : String) (r : Recipe), as_recipe i = .ok r →
      r.steps ≠ [] ∧ ∀ st ∈ r.steps, st.ingredients ≠ [] := by
  intro i r h
  unfold as_recipe at h
  obtain ⟨s, hre⟩ := formatResult_ok_inv h
  unfold recipe at hre
  rcases pbind_complete_inv hre with ⟨s1, t, ht, h1⟩
  rcases pbind_complete_inv h1 with ⟨s2, x1, hp1, h2⟩
  rcases pbind_complete_inv h2 with ⟨s3, d, hd, h3⟩
  rcases pbind_complete_inv h3 with ⟨s4, x2, hp2, h4⟩
  rcases pbind_complete_inv h4 with ⟨s5, steps, hsl, h5⟩
  simp at h5
  obtain ⟨-, hr⟩ := h5
  unfold step_list at hsl
  rcases pbind_complete_inv hsl with ⟨sa, first, hf, hb⟩
  rcases pbind_complete_inv hb with ⟨sb, rest, hrest, hcons⟩
  simp at hcons
  obtain ⟨-, hsteps⟩ := hcons
  have hstep1 := pmust_complete_inv hf
  have hall : ∀ st ∈ steps, st.ingredients ≠ [] := by
    rw [← hsteps]
    intro st hst
    rcases List.mem_cons.mp hst with rfl | hmem
    · exact step_complete_ings hstep1
    · exact prepeat_mem (fun _ _ _ hv => step_complete_ings hv) hrest st hmem
  constructor
  · rw [← hr]
    simp only [Recipe.new, Recipe.with_steps]
    rw [← hsteps]
    simp
  · rw [← hr]
    simpa only [Recipe.new, Recipe.with_steps] using hall

/-- C7 (witness): the invariants at a concrete successful parse. -/
theorem claim7_witness :
    (⟨"t", none, [⟨none, "instr2", [⟨"z", none, .count (.whole 2), ""⟩]⟩]⟩
        : Recipe).steps ≠ [] ∧
    ∀ st ∈ (⟨"t", none, [⟨none, "instr2", [⟨"z", none, .count (.whole 2), ""⟩]⟩]⟩
        : Recipe).steps, st.ingredients ≠ [] :=
  claim7_amended "title: t\nstep:\n\n2 cnt z\n\ninstr2" _ (by decide)

/-- C8: the `unreachable!()` arm of `measure` never executes — every token
the `unit` rule can return (the vocabulary after lowercasing and
singularization) has an arm in the unit-to-Measurement mapping, and `measure`
never panics with the internal-invariant-violation kind on any input. -/
theorem claim8_no_unreachable :
    (∀ s s' u, unit s = .complete s' u →
      ∀ q : Quantity, (measureLookup u q).isSome = true) ∧
    (∀ s, measure s ≠ .crashed .unreachableUnit) := by
  constructor
  · intro s s' u h
    exact unit_complete_lookup h
  · intro s hcr
    unfold measure at hcr
    cases hmp : measure_parts s
    case complete s1 pair =>
      obtain ⟨q, uo⟩ := pair
      simp only [hmp] at hcr
      cases uo with
      | none => simp at hcr
      | some u =>
        obtain ⟨sa, sb, hu⟩ := measure_parts_some_unit hmp
        have hl2 := unit_complete_lookup hu q
        cases hl : measureLookup u q with
        | none => rw [hl] at hl2; simp at hl2
        | some m => simp only [hl] at hcr; simp at hcr
    case fail e => simp only [hmp] at hcr; simp at hcr
    case abort e => simp only [hmp] at hcr; simp at hcr
    case incomplete => simp only [hmp] at hcr; simp at hcr
    case crashed k =>
      simp only [hmp] at hcr
      injection hcr with h1
      rcases measure_parts_crashed_inv hmp with h2 | h2 <;> rw [h1] at h2 <;>
        exact absurd h2 (by simp)

/-- C8 (witness): the mapping clause at the concrete token `tbsps`. -/
theorem claim8_witness : (measureLookup "tbsp" (.whole 2)).isSome = true :=
  claim8_no_unreachable.1 ("tbsps x".data) ("x".data) "tbsp" (by decide) (.whole 2)

/-- C9: `as_recipe` erases the Fail/Abort distinction — both are formatted
through the same `Parse Failure:` shape — while only Incomplete gets its own
message; a recoverable top-level mismatch and a committed-section Abort are
therefore not structurally distinguishable from the returned value, contrary
to the three-way contract. -/
theorem claim9_collapse :
    formatResult (.fail "e") = formatResult (.abort "e") ∧
    recipe ("x".data) = .fail "Expected title:" ∧
    recipe ("title: t\nstep:\n\nNOPE\n\nZ".data) = .abort "Expected digit" ∧
    as_recipe "x" = .err "Parse Failure: Expected title:" ∧
    as_recipe "title: t\nstep:\n\nNOPE\n\nZ" = .err "Parse Failure: Expected digit" := by
  refine ⟨rfl, by decide, by decide, by decide, by decide⟩

/-- C10 (counterexample): a quantity whose digit run exceeds the `u32` range
makes `as_recipe` panic (the unwrap in `num`) instead of returning a
value. -/
theorem claim10_counterexample :
    as_recipe "title: t\nstep:\n\n5000000000 cnt x\n\nDo." =
      .crashed .overflow := by
  decide

/-- C10 (amended): the `num` conversion succeeds exactly for digit runs whose
value fits in `u32`; a run denoting at least `2^32` panics, so `as_recipe`
does not return for such inputs. -/
theorem claim10_amended :
    (∀ s s' v, num s = .complete s' v → v < 4294967296) ∧
    num ("5000000000 x".data) = .crashed .overflow := by
  exact ⟨fun _ _ _ h => num_complete_lt h, by decide⟩

/-- C10 (witness): the bound clause at a concrete completed parse of `12`. -/
theorem claim10_witness :
    num ("12 ".data) = .complete (" ".data) 12 ∧ (12 : Nat) < 4294967296 :=
  ⟨by decide, claim10_amended.1 ("12 ".data) (" ".data) 12 (by decide)⟩

end Kitchen
